import Mathlib

/-!
# SATpwn core: shallow embedding and verification

A shallow embedding of the stateful core of the SATpwn plugin
(`SATpwn.py`): the AP/client memory store, client scoring, expiry,
handshake recording, the attack gate, the auto meta-policy signals, and
the channel-selection policies (strict, loose, recon).

Conventions of the embedding:
* Python `time.time()` instants, signal strengths and scores are rationals
  (`ℚ`); channel numbers are integers (`ℤ`); MAC addresses are strings
  (the Python code lowercases MACs before use; here keys are taken to be
  already canonical).
* Python dicts keyed by MAC become association lists in insertion order
  (assignment updates an existing key in place, else appends).
* `random.choice` / `random.choices` are modelled by oracle parameters
  `pick` / `pickW` that select some element of the population list; the
  theorems quantify over all oracles that return a member of a non-empty
  population, so they hold for every random draw.
* The recon channel generator (`_channel_iterator`) is an infinite cycle
  over the supported-channel list; it is modelled by a cursor index read
  modulo the list length.  The self-recursion of `_epoch_recon` is
  modelled with explicit fuel of one full cycle.
-/

namespace SATpwn

/-! ## Class constants (SATpwn.py lines 26-45) -/

def AP_EXPIRY_SECONDS : ℚ := 3600 * 48
def CLIENT_EXPIRY_SECONDS : ℚ := 3600 * 24
def ATTACK_SCORE_THRESHOLD : ℚ := 50
def ATTACK_COOLDOWN_SECONDS : ℚ := 300
def SUCCESS_BONUS_DURATION_SECONDS : ℚ := 1800
def SCORE_DECAY_PENALTY_PER_HOUR : ℚ := 5
def PMKID_FRIENDLY_APS_THRESHOLD : ℕ := 3
def PMKID_FRIENDLY_BOOST_FACTOR : ℚ := 3 / 2
def HANDSHAKE_WEIGHT : ℚ := 10
def CLIENT_WEIGHT : ℚ := 1
def SCORE_RECALCULATION_INTERVAL_SECONDS : ℚ := 30
def DRIVE_BY_AP_EXPIRY_SECONDS : ℚ := 1800
def DRIVE_BY_CLIENT_EXPIRY_SECONDS : ℚ := 900
def DRIVE_BY_ATTACK_SCORE_THRESHOLD : ℚ := 20
def DRIVE_BY_ATTACK_COOLDOWN_SECONDS : ℚ := 60
def STATIONARY_SECONDS : ℚ := 3600
def ACTIVITY_THRESHOLD : ℕ := 5
def ACTIVITY_WINDOW_SECONDS : ℚ := 300

/-! ## Data model -/

/-- One client record, as created/updated by `on_wifi_update`
(SATpwn.py lines 444-456). -/
structure ClientData where
  last_seen : ℚ
  signal : ℚ
  score : ℚ
  last_attempt : ℚ
  last_success : ℚ
  last_recalculated : ℚ
deriving Repr, DecidableEq

/-- One access-point record, as created/updated by `on_wifi_update`
(SATpwn.py lines 426-438).  Clients are an insertion-ordered dict. -/
structure APData where
  ssid : String
  channel : ℤ
  clients : List (String × ClientData)
  last_seen : ℚ
  handshakes : ℕ
deriving Repr, DecidableEq

/-- `self.memory`: dict from AP MAC to its record, in insertion order. -/
abbrev Memory := List (String × APData)

/-- Python dict lookup on an association list (first binding wins;
dicts have no duplicate keys, so this is exact). -/
def alookup {α : Type} (k : String) : List (String × α) → Option α
  | [] => none
  | p :: t => if p.1 = k then some p.2 else alookup k t

/-- Python dict assignment `d[k] = v`: overwrite an existing binding in
place, else append (insertion order). -/
def aset {α : Type} (k : String) (v : α) (l : List (String × α)) :
    List (String × α) :=
  if (alookup k l).isSome then
    l.map (fun p => if p.1 = k then (k, v) else p)
  else l ++ [(k, v)]

/-- Apply `g` to the value bound at key `k`, leaving other entries alone
(the shape of every keyed in-place dict mutation in the Python code). -/
def updEntry {α : Type} (k : String) (g : α → α) (p : String × α) :
    String × α :=
  if p.1 = k then (p.1, g p.2) else p

/-- Apply `g` to an AP record's client dict. -/
def mapClients
    (g : List (String × ClientData) → List (String × ClientData))
    (a : APData) : APData :=
  { a with clients := g a.clients }

/-- In-place mutation of the client record at `cm` inside the AP record at
`apm` (how the Python code mutates `self.memory[ap_mac]['clients'][c]`). -/
def modifyClient (apm cm : String) (f : ClientData → ClientData)
    (mem : Memory) : Memory :=
  mem.map (updEntry apm (mapClients (List.map (updEntry cm f))))

/-! ## Client scoring (`_recalculate_client_score`, lines 303-317) -/

/-- Embeds `_recalculate_client_score` acting on the addressed client
record; `now` stands for `time.time()` (called twice in the Python body,
both reads modelled as the same instant).  Returns the computed score and
the record with its `score` field set to it. -/
def recalculate_client_score (now : ℚ) (c : ClientData) : ℚ × ClientData :=
  let score0 := c.signal + 100
  let score1 :=
    if c.last_success > now - SUCCESS_BONUS_DURATION_SECONDS
    then score0 + 50 else score0
  let age_hours := (now - c.last_seen) / 3600
  let decay_amount := age_hours * SCORE_DECAY_PENALTY_PER_HOUR
  let score2 := score1 - decay_amount
  let score3 := max 0 score2
  (score3, { c with score := score3 })

/-- Memory-level `_recalculate_client_score`: recompute and store the score
of client `cm` under AP `apm` (callers guarantee both keys exist). -/
def recalc_in_memory (now : ℚ) (apm cm : String) (mem : Memory) : Memory :=
  modifyClient apm cm (fun c => (recalculate_client_score now c).2) mem

/-- Read a client's stored score out of memory (instrumentation for the
theorems; the Python code reads `client_data['score']`). -/
def score_of_mem (mem : Memory) (apm cm : String) : Option ℚ :=
  (alookup apm mem).bind fun a => (alookup cm a.clients).map (·.score)

/-! ## Ingestion (`on_wifi_update`, lines 414-476) -/

/-- One observed client in a wifi scan result. -/
structure ClientObs where
  mac : String
  rssi : ℚ
deriving Repr, DecidableEq

/-- One observed access point in a wifi scan result. -/
structure APObs where
  mac : String
  hostname : String
  channel : ℤ
  clients : List ClientObs
deriving Repr, DecidableEq

/-- The throttled score read of `on_wifi_update` (lines 458-465): if more
than `SCORE_RECALCULATION_INTERVAL_SECONDS` elapsed since the last
recalculation, recompute (stamping `last_recalculated`), else reuse the
cached `score` field.  Returns the score used and the resulting record. -/
def throttled_score (now : ℚ) (c0 : ClientData) : ℚ × ClientData :=
  if now - c0.last_recalculated > SCORE_RECALCULATION_INTERVAL_SECONDS then
    let r := recalculate_client_score now c0
    (r.1, { r.2 with last_recalculated := now })
  else (c0.score, c0)

/-- The record refresh of a re-observed client (lines 453-456):
`update(last_seen=now, signal=client['rssi'])`. -/
def observeClient (now rssi : ℚ) (c : ClientData) : ClientData :=
  { c with last_seen := now, signal := rssi }

/-- The per-client body of `on_wifi_update` (lines 440-473) on the client
dict of one AP: upsert the record, throttled score refresh, attack-gate
check.  Returns the updated client dict and whether an attack was
dispatched for this client (i.e. `executor.submit(_execute_attack, ...)`
was reached; `last_attempt` is stamped exactly then). -/
def ingestClient (mode : String) (now : ℚ) (obs : ClientObs)
    (cs : List (String × ClientData)) : List (String × ClientData) × Bool :=
  let c0 : ClientData :=
    match alookup obs.mac cs with
    | none => ⟨now, obs.rssi, 0, 0, 0, 0⟩
    | some c => observeClient now obs.rssi c
  let sc := throttled_score now c0
  let attack_score_threshold :=
    if mode = "drive-by" then DRIVE_BY_ATTACK_SCORE_THRESHOLD
    else ATTACK_SCORE_THRESHOLD
  let attack_cooldown :=
    if mode = "drive-by" then DRIVE_BY_ATTACK_COOLDOWN_SECONDS
    else ATTACK_COOLDOWN_SECONDS
  let dispatched : Bool :=
    decide (sc.1 ≥ attack_score_threshold) &&
    decide (now - sc.2.last_attempt > attack_cooldown)
  let c2 := if dispatched then { sc.2 with last_attempt := now } else sc.2
  (aset obs.mac c2 cs, dispatched)

/-- The per-AP body of `on_wifi_update` (lines 422-473): upsert the AP
record, then process each observed client in order.  Returns the updated
memory and whether the AP was newly created (feeds `new_ap_count`). -/
def ingestAP (mode : String) (now : ℚ) (mem : Memory) (obs : APObs) :
    Memory × Bool :=
  let isNew := (alookup obs.mac mem).isNone
  let apRec : APData :=
    match alookup obs.mac mem with
    | none => ⟨obs.hostname, obs.channel, [], now, 0⟩
    | some a =>
      { a with last_seen := now, ssid := obs.hostname, channel := obs.channel }
  let clients :=
    obs.clients.foldl (fun cs c => (ingestClient mode now c cs).1)
      apRec.clients
  (aset obs.mac { apRec with clients := clients } mem, isNew)

/-- `on_wifi_update` over a scan result: fold `ingestAP` over the observed
APs, counting new ones.  Returns the updated memory and `new_ap_count`. -/
def on_wifi_update (mode : String) (now : ℚ) (mem : Memory)
    (aps : List APObs) : Memory × ℕ :=
  aps.foldl
    (fun acc ap =>
      let r := ingestAP mode now acc.1 ap
      (r.1, acc.2 + (if r.2 then 1 else 0)))
    (mem, 0)

/-! ## Handshake recording (`on_handshake`, lines 478-492) -/

/-- `self.memory[ap_mac]['handshakes'] = ... + 1` (line 485). -/
def incHandshakes (a : APData) : APData :=
  { a with handshakes := a.handshakes + 1 }

/-- `...['last_success'] = time.time()` (line 489). -/
def setLastSuccess (now : ℚ) (c : ClientData) : ClientData :=
  { c with last_success := now }

/-- Embeds `on_handshake`: if the AP is known its handshake counter is
incremented; if additionally the client is known under that AP, its
`last_success` is stamped to `now` and its score immediately
recalculated. -/
def on_handshake (now : ℚ) (mem : Memory) (apm cm : String) : Memory :=
  let mem1 :=
    if (alookup apm mem).isSome then mem.map (updEntry apm incHandshakes)
    else mem
  if (alookup apm mem1).any (fun a => (alookup cm a.clients).isSome) then
    recalc_in_memory now apm cm
      (modifyClient apm cm (setLastSuccess now) mem1)
  else mem1

/-! ## Expiry (`_cleanup_memory`, lines 277-301) -/

/-- The expiry sweep of `_cleanup_memory` with explicit TTLs: drop AP
records idle past `ap_ttl`, then within each surviving AP drop client
records idle past `client_ttl`. -/
def expire (now ap_ttl client_ttl : ℚ) (mem : Memory) : Memory :=
  (mem.filter (fun p => !decide (now - p.2.last_seen > ap_ttl))).map
    (fun p =>
      (p.1, { p.2 with
              clients := p.2.clients.filter
                (fun q => !decide (now - q.2.last_seen > client_ttl)) }))

/-- `_cleanup_memory` proper: the TTLs depend on the current mode
(drive-by uses the fast constants). -/
def cleanup_memory (mode : String) (now : ℚ) (mem : Memory) : Memory :=
  let ap_expiry :=
    if mode = "drive-by" then DRIVE_BY_AP_EXPIRY_SECONDS
    else AP_EXPIRY_SECONDS
  let client_expiry :=
    if mode = "drive-by" then DRIVE_BY_CLIENT_EXPIRY_SECONDS
    else CLIENT_EXPIRY_SECONDS
  expire now ap_expiry client_expiry mem

/-! ## Activity signals and the auto meta-policy (lines 174-226) -/

/-- The shared `recent_activity` sum of `_is_stationary` / `_is_moving`:
total newly-discovered-AP count over entries of the activity history within
`ACTIVITY_WINDOW_SECONDS` of `now`. -/
def recent_activity (now : ℚ) (hist : List (ℚ × ℕ)) : ℕ :=
  ((hist.filter (fun p => decide (now - p.1 ≤ ACTIVITY_WINDOW_SECONDS))).map
    (·.2)).sum

/-- Embeds `_is_stationary` (lines 181-196).  `start` is the
`_stationary_start` field; the result pairs the boolean verdict with the
updated `_stationary_start`. -/
def is_stationary (now : ℚ) (hist : List (ℚ × ℕ)) (start : Option ℚ) :
    Bool × Option ℚ :=
  if recent_activity now hist < ACTIVITY_THRESHOLD then
    let s := start.getD now
    (decide (now - s ≥ STATIONARY_SECONDS), some s)
  else (false, none)

/-- Embeds `_is_moving` (lines 198-203). -/
def is_moving (now : ℚ) (hist : List (ℚ × ℕ)) : Bool :=
  decide (recent_activity now hist ≥ ACTIVITY_THRESHOLD)

/-- Embeds `_home_ssid_visible` (lines 205-214): some AP in memory whose
SSID or MAC is whitelisted. -/
def home_ssid_visible (wl : List String) (mem : Memory) : Bool :=
  mem.any (fun p => wl.contains p.2.ssid || wl.contains p.1)

/-- Embeds `_auto_mode_logic` (lines 216-226) as a function of its four
input signals: home-network visible, judged stationary, judged moving, and
the tracked-AP count `len(self.memory)`. -/
def auto_mode_logic (home stationary moving : Bool) (apCount : ℕ) : String :=
  if home || stationary then "recon"
  else if moving then "drive-by"
  else if apCount < 10 then "loose" else "strict"

/-! ## The attack gate (`_execute_attack`, lines 319-337) -/

/-- Embeds the guard chain of `_execute_attack`: returns whether the
attack body is reached.  The auto sub-mode is recomputed inside the call
from the current signals, exactly as `_auto_mode_logic()` is. -/
def execute_attack (enabled : Bool) (mode : String)
    (home stationary moving : Bool) (apCount : ℕ) : Bool :=
  if !enabled then false
  else if mode = "auto" && decide (auto_mode_logic home stationary moving apCount = "recon")
  then false
  else if mode = "recon" then false
  else true

/-- A client's attack actually executes only if ingestion dispatched it
(`ingestClient` second component) and `execute_attack`'s guards pass. -/
def clientAttackExecuted (enabled : Bool) (mode : String) (now : ℚ)
    (obs : ClientObs) (cs : List (String × ClientData))
    (home stationary moving : Bool) (apCount : ℕ) : Bool :=
  (ingestClient mode now obs cs).2 &&
    execute_attack enabled mode home stationary moving apCount

/-! ## Channel statistics and weights (lines 339-351, 507-513) -/

/-- Per-channel aggregate, the value type of `self.channel_stats`. -/
structure ChStats where
  aps : ℕ
  clients : ℕ
  handshakes : ℕ
deriving Repr, DecidableEq

/-- Embeds `_get_channel_stats` (lines 339-351): bucket AP records by
channel, accumulating AP count, client count and handshake count.  The
dict is modelled as an assoc list in first-seen channel order. -/
def get_channel_stats (mem : Memory) : List (ℤ × ChStats) :=
  mem.foldl
    (fun stats p =>
      let ch := p.2.channel
      match stats.lookup ch with
      | none =>
        stats ++ [(ch, ⟨1, p.2.clients.length, p.2.handshakes⟩)]
      | some s =>
        stats.map (fun q =>
          if q.1 = ch then
            (q.1, ⟨s.aps + 1, s.clients + p.2.clients.length,
                   s.handshakes + p.2.handshakes⟩)
          else q))
    []

/-- The per-channel weight shared by strict and loose
(lines 507-513 / 550-556): clients·CLIENT_WEIGHT +
handshakes·HANDSHAKE_WEIGHT, boosted ×1.5 on AP-dense client-sparse
channels. -/
def channelWeight (s : ChStats) : ℚ :=
  let w : ℚ := s.clients * CLIENT_WEIGHT + s.handshakes * HANDSHAKE_WEIGHT
  if s.aps > PMKID_FRIENDLY_APS_THRESHOLD ∧ s.aps > s.clients
  then w * PMKID_FRIENDLY_BOOST_FACTOR else w

/-! ## Strict / loose channel selection (lines 495-577)

`pick` models `random.choice` and `pickW` models
`random.choices(..., weights, k=1)[0]`; every theorem below assumes only
that they return a member of a non-empty population, which both Python
functions always do (weights are non-negative here, with positive total on
the weighted path). -/

/-- Embeds `_epoch_strict` (lines 495-531), returning the single channel
passed to `agent.set_channel`.  `stats` is the (freshly aggregated)
`self.channel_stats`. -/
def epoch_strict (pick : List ℤ → ℤ) (pickW : List ℤ → List ℚ → ℤ)
    (stats : List (ℤ × ChStats)) (supported : List ℤ) : ℤ :=
  let channels := stats.map (·.1)
  if channels.isEmpty then pick supported
  else
    let weights := stats.map (fun p => channelWeight p.2)
    let pairs := channels.zip weights
    let sup := pairs.filter (fun p => decide (p.1 ∈ supported))
    let supChannels := sup.map (·.1)
    let supWeights := sup.map (·.2)
    if supChannels.isEmpty then pick supported
    else if supWeights.sum = 0 then pick supChannels
    else pickW supChannels supWeights

/-- Embeds `_epoch_loose` (lines 533-577): `explore` is the outcome of
`random.random() < EXPLORATION_PROBABILITY`; otherwise strict's weights
get a flat `+1.0` exploration bonus before the draw. -/
def epoch_loose (explore : Bool) (pick : List ℤ → ℤ)
    (pickW : List ℤ → List ℚ → ℤ) (stats : List (ℤ × ChStats))
    (supported : List ℤ) : ℤ :=
  if explore then pick supported
  else
    let channels := stats.map (·.1)
    if channels.isEmpty then pick supported
    else
      let weights := (stats.map (fun p => channelWeight p.2)).map (· + 1)
      let pairs := channels.zip weights
      let sup := pairs.filter (fun p => decide (p.1 ∈ supported))
      let supChannels := sup.map (·.1)
      let supWeights := sup.map (·.2)
      if supChannels.isEmpty then pick supported
      else if supWeights.sum = 0 then pick supChannels
      else pickW supChannels supWeights

/-! ## Recon channel selection (lines 353-359, 583-601) -/

/-- The recon cursor state: the position of the infinite cycling generator
`_channel_iterator(supported_channels)` over the supported list, plus
`recon_channels_tested`. -/
structure ReconState where
  cursor : ℕ
  tested : List ℤ
deriving Repr, DecidableEq

/-- The freshly reset recon cursor (iterator rebuilt, tested cleared). -/
def reconReset : ReconState := ⟨0, []⟩

/-- The inner loop of `_epoch_recon`: repeatedly draw
`next(self.recon_channel_iterator)` (the element at `cursor` modulo the
list length) and skip channels already tested, recursing with `fuel`
bounding the self-recursion.  Returns the channel set together with the
advanced cursor and tested list, or `none` if `fuel` draws were all
skipped (in the Python code that recursion would simply continue). -/
def reconLoop (supported : List ℤ) :
    ℕ → ℕ → List ℤ → Option (ℤ × ℕ × List ℤ)
  | 0, _, _ => none
  | fuel + 1, cursor, tested =>
    match supported[cursor % supported.length]? with
    | none => none
    | some c =>
      if c ∈ tested then reconLoop supported fuel (cursor + 1) tested
      else some (c, cursor + 1, tested ++ [c])

/-- The observable outcome of one `_epoch_recon` call. -/
inductive ReconResult where
  /-- `agent.set_channel c` was called and the cursor state advanced. -/
  | set (c : ℤ) (s : ReconState)
  /-- The call fell through to `_epoch_strict`'s selection logic. -/
  | fallthrough (s : ReconState)
  /-- The skip-recursion exceeded one full cycle over the channel list
  (never reached from reachable states; in Python this recursion would
  continue past one cycle). -/
  | diverge
deriving Repr, DecidableEq

/-- Embeds `_epoch_recon` (lines 583-601) on an already-initialized cursor
state, with the self-recursion given one full cycle of fuel. -/
def epoch_recon (supported : List ℤ) (s : ReconState) : ReconResult :=
  if supported.length ≤ s.tested.length then .fallthrough s
  else
    match reconLoop supported supported.length s.cursor s.tested with
    | some (c, cur, tested) => .set c ⟨cur, tested⟩
    | none => .diverge

/-- The trace of successive `_epoch_recon` calls from the freshly reset
state: the cursor state after `k` calls and the list of channels set so
far, in order. -/
def reconTrace (supported : List ℤ) : ℕ → ReconState × List ℤ
  | 0 => (reconReset, [])
  | k + 1 =>
    let r := reconTrace supported k
    match epoch_recon supported r.1 with
    | .set c s => (s, r.2 ++ [c])
    | .fallthrough s => (s, r.2)
    | .diverge => (r.1, r.2)

/-! ## Theorems -/

/-- C6: the auto sub-mode decision is a pure function of (home-visible,
stationary, moving, tracked-AP count) honoring the stated priority order:
`recon` if home-visible or stationary (so home wins over moving), else
`drive-by` if moving, else `loose` below 10 tracked APs, else `strict`. -/
theorem auto_mode_logic_priority (home stationary moving : Bool)
    (apCount : ℕ) :
    ((home = true ∨ stationary = true) →
      auto_mode_logic home stationary moving apCount = "recon") ∧
    (home = false → stationary = false → moving = true →
      auto_mode_logic home stationary moving apCount = "drive-by") ∧
    (home = false → stationary = false → moving = false → apCount < 10 →
      auto_mode_logic home stationary moving apCount = "loose") ∧
    (home = false → stationary = false → moving = false → 10 ≤ apCount →
      auto_mode_logic home stationary moving apCount = "strict") ∧
    auto_mode_logic true false true apCount = "recon" := by
  refine ⟨?_, ?_, ?_, ?_, by simp [auto_mode_logic]⟩
  · rintro (h | h) <;> subst h <;> simp [auto_mode_logic]
  · rintro rfl rfl rfl; simp [auto_mode_logic]
  · rintro rfl rfl rfl h; simp [auto_mode_logic, h]
  · rintro rfl rfl rfl h; simp [auto_mode_logic, Nat.not_lt.mpr h]

/-- C6 witness: home visible with moving still yields recon
(home wins over moving), at apCount 3. -/
theorem auto_mode_logic_priority_witness :
    ((true : Bool) = true ∨ (false : Bool) = true) ∧
    auto_mode_logic true false true 3 = "recon" :=
  ⟨Or.inl rfl, (auto_mode_logic_priority true false true 3).1 (Or.inl rfl)⟩

/-- C10: at a single instant (same `now` and same activity history) the
stationary and moving judgments are mutually exclusive — `_is_stationary`
and `_is_moving` never both return true, since the former requires recent
activity strictly below `ACTIVITY_THRESHOLD` and the latter requires it at
or above the threshold. -/
theorem stationary_moving_exclusive (now : ℚ) (hist : List (ℚ × ℕ))
    (start : Option ℚ) :
    ((is_stationary now hist start).1 && is_moving now hist) = false := by
  unfold is_stationary is_moving
  by_cases h : recent_activity now hist < ACTIVITY_THRESHOLD
  · simp [h, Nat.not_le.mpr h]
  · simp [h]

/-- C8: the expiry sweep is idempotent — a second run with the same `now`,
`ap_ttl` and `client_ttl` removes nothing and returns the store unchanged. -/
theorem expire_idempotent (now ap_ttl client_ttl : ℚ) (mem : Memory) :
    expire now ap_ttl client_ttl (expire now ap_ttl client_ttl mem) =
      expire now ap_ttl client_ttl mem := by
  unfold expire
  rw [List.filter_map, List.map_map]
  congr 1
  · funext p
    simp [Function.comp, List.filter_filter]
  · rw [List.filter_filter]
    simp [Function.comp]

/-- The end-to-end scenario store: one AP `aa:bb:cc:dd:ee:01` on channel 6
with one client at signal −60 dBm and no prior capture, ingested at time
10000 into an empty store (the constant instant avoids the startup corner
where `last_success = 0` still lies inside the bonus window). -/
def scenarioMem : Memory :=
  (ingestAP "strict" 10000 []
    ⟨"aa:bb:cc:dd:ee:01", "HomeNet", 6, [⟨"11:22:33:44:55:66", -60⟩]⟩).1

/-- C1: score recalculation computes exactly
`clamp_min(0, (signal+100) + success bonus − idle-hours decay)`, stores it
in the record's `score` field and returns it; on the scenario store the
client scores 40, and 90 after a capture is recorded via `on_handshake`. -/
theorem recalculate_client_score_correct :
    (∀ (now : ℚ) (c : ClientData),
      (recalculate_client_score now c).1 =
        max 0 (c.signal + 100
          + (if c.last_success > now - SUCCESS_BONUS_DURATION_SECONDS
             then (50 : ℚ) else 0)
          - (now - c.last_seen) / 3600 * SCORE_DECAY_PENALTY_PER_HOUR)) ∧
    (∀ (now : ℚ) (c : ClientData),
      (recalculate_client_score now c).2 =
        { c with score := (recalculate_client_score now c).1 }) ∧
    score_of_mem scenarioMem "aa:bb:cc:dd:ee:01" "11:22:33:44:55:66"
      = some 40 ∧
    score_of_mem
      (on_handshake 10000 scenarioMem "aa:bb:cc:dd:ee:01" "11:22:33:44:55:66")
      "aa:bb:cc:dd:ee:01" "11:22:33:44:55:66" = some 90 := by
  refine ⟨?_, fun now c => rfl, ?_, ?_⟩
  · intro now c
    unfold recalculate_client_score
    split <;> dsimp <;> ring_nf
  · norm_num [scenarioMem, ingestAP, ingestClient, alookup, aset,
      observeClient, throttled_score, recalculate_client_score, score_of_mem,
      SCORE_RECALCULATION_INTERVAL_SECONDS, SUCCESS_BONUS_DURATION_SECONDS,
      SCORE_DECAY_PENALTY_PER_HOUR, ATTACK_SCORE_THRESHOLD,
      ATTACK_COOLDOWN_SECONDS, DRIVE_BY_ATTACK_SCORE_THRESHOLD,
      DRIVE_BY_ATTACK_COOLDOWN_SECONDS,
      show ("strict" = "drive-by") = False from by simp]
  · norm_num [scenarioMem, ingestAP, ingestClient, alookup, aset,
      observeClient, throttled_score, recalculate_client_score, score_of_mem,
      on_handshake, modifyClient, recalc_in_memory, incHandshakes,
      setLastSuccess, updEntry, mapClients,
      SCORE_RECALCULATION_INTERVAL_SECONDS, SUCCESS_BONUS_DURATION_SECONDS,
      SCORE_DECAY_PENALTY_PER_HOUR, ATTACK_SCORE_THRESHOLD,
      ATTACK_COOLDOWN_SECONDS, DRIVE_BY_ATTACK_SCORE_THRESHOLD,
      DRIVE_BY_ATTACK_COOLDOWN_SECONDS,
      show ("strict" = "drive-by") = False from by simp]

/-- C4: an attack is never executed while the effective mode is recon —
for any client processed during ingestion, if the mode is `recon`, or the
mode is `auto` with derived sub-mode `recon`, the dispatched attack's guard
chain rejects it. -/
theorem no_attack_in_recon (enabled : Bool) (mode : String) (now : ℚ)
    (obs : ClientObs) (cs : List (String × ClientData))
    (home stationary moving : Bool) (apCount : ℕ)
    (h : mode = "recon" ∨
      (mode = "auto" ∧
        auto_mode_logic home stationary moving apCount = "recon")) :
    clientAttackExecuted enabled mode now obs cs home stationary moving apCount
      = false := by
  rcases h with rfl | ⟨rfl, h2⟩ <;>
    cases enabled <;> simp [clientAttackExecuted, execute_attack, *]

/-- C4 witness: in plain recon mode at a concrete state, no attack
executes. -/
theorem no_attack_in_recon_witness :
    (("recon" : String) = "recon" ∨
      (("recon" : String) = "auto" ∧
        auto_mode_logic false false false 0 = "recon")) ∧
    clientAttackExecuted true "recon" 10000 ⟨"cl", -20⟩ []
      false false false 0 = false :=
  ⟨Or.inl rfl,
    no_attack_in_recon true "recon" 10000 ⟨"cl", -20⟩ [] false false false 0
      (Or.inl rfl)⟩

/-! ## Dictionary-mutation lemmas shared by the store theorems -/

lemma alookup_map_updEntry {α : Type} (k : String) (g : α → α)
    (l : List (String × α)) :
    alookup k (l.map (updEntry k g)) = (alookup k l).map g := by
  induction l with
  | nil => rfl
  | cons hd tl ih =>
    by_cases h : hd.1 = k
    · simp [alookup, updEntry, h]
    · simp [alookup, updEntry, h, ih]

lemma updEntry_comp {α : Type} (k : String) (g1 g2 : α → α)
    (p : String × α) :
    updEntry k g1 (updEntry k g2 p) = updEntry k (fun a => g1 (g2 a)) p := by
  by_cases h : p.1 = k
  · simp [updEntry, h]
  · simp [updEntry, h]

lemma updEntry_congr {α : Type} (k : String) {g1 g2 : α → α}
    (p : String × α) (h : g1 p.2 = g2 p.2) :
    updEntry k g1 p = updEntry k g2 p := by
  by_cases hk : p.1 = k <;> simp [updEntry, hk, h]

lemma modifyClient_modifyClient (apm cm : String)
    (f g : ClientData → ClientData) (mem : Memory) :
    modifyClient apm cm f (modifyClient apm cm g mem) =
      modifyClient apm cm (fun c => f (g c)) mem := by
  unfold modifyClient
  rw [List.map_map]
  apply List.map_congr_left
  intro p _
  show updEntry apm _ (updEntry apm _ p) = _
  rw [updEntry_comp]
  apply updEntry_congr
  show mapClients _ (mapClients _ p.2) = mapClients _ p.2
  unfold mapClients
  dsimp only
  simp only [List.map_map]
  congr 1
  apply List.map_congr_left
  intro q _
  exact updEntry_comp cm f g q

/-! ## C2: the score-recalculation throttle -/

/-- First observation of client `cl1` at time 10000 with signal −60: the
fresh record is scored (40) and the score cached. -/
def throttleDemo1 : List (String × ClientData) :=
  (ingestClient "strict" 10000 ⟨"cl1", -60⟩ []).1

/-- Second observation 10 seconds later — inside the throttle interval —
at signal −30. -/
def throttleDemo2 : List (String × ClientData) :=
  (ingestClient "strict" 10010 ⟨"cl1", -30⟩ throttleDemo1).1

/-- C2 counterexample: after the second observation the throttled path
still reports the cached score 40, while an unthrottled recomputation at
the same instant on the same stored record yields 70 (the signal changed
from −60 to −30 inside the interval).  The throttle is therefore not
behavior-preserving. -/
theorem throttle_not_behavior_preserving :
    (alookup "cl1" throttleDemo2).map (·.score) = some 40 ∧
    (alookup "cl1" throttleDemo2).map
      (fun c => (recalculate_client_score 10010 c).1) = some 70 := by
  constructor <;>
    norm_num [throttleDemo2, throttleDemo1, ingestClient, alookup, aset,
      observeClient, throttled_score, recalculate_client_score,
      SCORE_RECALCULATION_INTERVAL_SECONDS, SUCCESS_BONUS_DURATION_SECONDS,
      SCORE_DECAY_PENALTY_PER_HOUR, ATTACK_SCORE_THRESHOLD,
      ATTACK_COOLDOWN_SECONDS, DRIVE_BY_ATTACK_SCORE_THRESHOLD,
      DRIVE_BY_ATTACK_COOLDOWN_SECONDS,
      show ("strict" = "drive-by") = False from by simp]

/-- C2 amended: along the `on_wifi_update` update path, the cached score
reused by the throttle agrees with a fresh unthrottled recomputation
provided the observed signal is unchanged between the caching call (time
`t1`) and the read (time `t2` within the interval) and the success-bonus
test gives the same verdict at both instants.  Without those provisos the
claim is false (see the counterexample). -/
theorem throttled_score_stable (t1 t2 rssi : ℚ) (c : ClientData)
    (h1 : t1 - c.last_recalculated > SCORE_RECALCULATION_INTERVAL_SECONDS)
    (h2 : t2 - t1 ≤ SCORE_RECALCULATION_INTERVAL_SECONDS)
    (h3 : (c.last_success > t1 - SUCCESS_BONUS_DURATION_SECONDS) ↔
          (c.last_success > t2 - SUCCESS_BONUS_DURATION_SECONDS)) :
    (throttled_score t2 (observeClient t2 rssi
        (throttled_score t1 (observeClient t1 rssi c)).2)).1 =
      (recalculate_client_score t2 (observeClient t2 rssi
        (throttled_score t1 (observeClient t1 rssi c)).2)).1 := by
  have hn : ¬(t2 - t1 > SCORE_RECALCULATION_INTERVAL_SECONDS) := not_lt.mpr h2
  simp only [throttled_score, observeClient, recalculate_client_score]
  rw [if_pos h1]
  simp only [if_neg hn]
  by_cases hb : c.last_success > t1 - SUCCESS_BONUS_DURATION_SECONDS
  · simp only [if_pos hb, if_pos (h3.mp hb)]
    ring_nf
  · simp only [if_neg hb, if_neg (fun hx => hb (h3.mpr hx))]
    ring_nf

/-- C2 amended witness: concrete stable pair of observations (same signal,
bonus window unchanged) where cached and fresh scores agree. -/
theorem throttled_score_stable_witness :
    ((10000 : ℚ) - (0 : ℚ) > SCORE_RECALCULATION_INTERVAL_SECONDS) ∧
    ((10010 : ℚ) - 10000 ≤ SCORE_RECALCULATION_INTERVAL_SECONDS) ∧
    (((0 : ℚ) > 10000 - SUCCESS_BONUS_DURATION_SECONDS) ↔
      ((0 : ℚ) > 10010 - SUCCESS_BONUS_DURATION_SECONDS)) ∧
    (throttled_score 10010 (observeClient 10010 (-60)
        (throttled_score 10000 (observeClient 10000 (-60)
          ⟨0, 0, 0, 0, 0, 0⟩)).2)).1 =
      (recalculate_client_score 10010 (observeClient 10010 (-60)
        (throttled_score 10000 (observeClient 10000 (-60)
          ⟨0, 0, 0, 0, 0, 0⟩)).2)).1 :=
  ⟨by norm_num [SCORE_RECALCULATION_INTERVAL_SECONDS],
   by norm_num [SCORE_RECALCULATION_INTERVAL_SECONDS],
   by norm_num [SUCCESS_BONUS_DURATION_SECONDS],
   throttled_score_stable 10000 10010 (-60) ⟨0, 0, 0, 0, 0, 0⟩
     (by norm_num [SCORE_RECALCULATION_INTERVAL_SECONDS])
     (by norm_num [SCORE_RECALCULATION_INTERVAL_SECONDS])
     (by norm_num [SUCCESS_BONUS_DURATION_SECONDS])⟩

/-! ## C3: handshake recording on unknown AP/client -/

/-- A store with one known AP that has no known clients. -/
def hsDemoMem : Memory := [("ap1", ⟨"net", 6, [], 0, 0⟩)]

/-- C3 counterexample: recording a capture for a known AP but an unknown
client is not a no-op — the AP's handshake counter still goes from 0
to 1, so the store changes. -/
theorem on_handshake_unknown_client_not_noop :
    (alookup "ap1" (on_handshake 5 hsDemoMem "ap1" "ghost")).map
      (·.handshakes) = some 1 ∧
    on_handshake 5 hsDemoMem "ap1" "ghost" ≠ hsDemoMem := by
  have hmap : (alookup "ap1" (on_handshake 5 hsDemoMem "ap1" "ghost")).map
      (·.handshakes) = some 1 := by
    simp [on_handshake, hsDemoMem, alookup, updEntry, incHandshakes]
  refine ⟨hmap, fun h => ?_⟩
  rw [h] at hmap
  simp [hsDemoMem, alookup] at hmap

/-- C3 amended: `on_handshake` with an unknown AP MAC leaves the store
unchanged; with a known AP it increments that AP's handshake counter by
one even when the client MAC is unknown (changing nothing else); when both
are known it additionally stamps the client's `last_success` to `now` and
immediately recalculates the client's score. -/
theorem on_handshake_spec (now : ℚ) (mem : Memory) (apm cm : String) :
    (alookup apm mem = none → on_handshake now mem apm cm = mem) ∧
    (∀ a : APData, alookup apm mem = some a → alookup cm a.clients = none →
      on_handshake now mem apm cm = mem.map (updEntry apm incHandshakes)) ∧
    (∀ (a : APData) (c : ClientData),
      alookup apm mem = some a → alookup cm a.clients = some c →
      (alookup apm (on_handshake now mem apm cm)).map (·.handshakes)
          = some (a.handshakes + 1) ∧
      (alookup apm (on_handshake now mem apm cm)).bind
          (fun a2 => alookup cm a2.clients)
        = some ((recalculate_client_score now (setLastSuccess now c)).2)) := by
  refine ⟨?_, ?_, ?_⟩
  · intro h
    simp [on_handshake, h]
  · intro a ha hc
    unfold on_handshake
    rw [ha]
    simp only [Option.isSome_some, if_true]
    rw [alookup_map_updEntry, ha]
    simp only [Option.map_some', Option.any_some]
    have hcli : (alookup cm (incHandshakes a).clients) = none := hc
    simp [hcli]
  · intro a c ha hc
    have key : on_handshake now mem apm cm =
        modifyClient apm cm
          (fun c0 => (recalculate_client_score now (setLastSuccess now c0)).2)
          (mem.map (updEntry apm incHandshakes)) := by
      unfold on_handshake
      rw [ha]
      simp only [Option.isSome_some, if_true]
      rw [alookup_map_updEntry, ha]
      have hcli : (alookup cm (incHandshakes a).clients) = some c := hc
      simp only [Option.map_some', Option.any_some, hcli, Option.isSome_some,
        if_true]
      unfold recalc_in_memory
      rw [modifyClient_modifyClient]
    rw [key]
    unfold modifyClient
    rw [alookup_map_updEntry, alookup_map_updEntry, ha]
    simp only [Option.map_some', Option.some_bind]
    constructor
    · rfl
    · show alookup cm (mapClients _ (incHandshakes a)).clients = _
      show alookup cm ((incHandshakes a).clients.map _) = _
      rw [show (incHandshakes a).clients = a.clients from rfl]
      rw [alookup_map_updEntry, hc]
      rfl

/-- The client, AP and store used to witness the both-known branch. -/
def hsWitnessClient : ClientData := ⟨100, -50, 0, 0, 0, 0⟩

def hsWitnessAP : APData := ⟨"net", 6, [("cl1", hsWitnessClient)], 100, 2⟩

def hsWitnessMem : Memory := [("ap1", hsWitnessAP)]

/-- C3 amended witness: on a concrete store with both AP and client known,
the handshake counter rises to 3 and the client record is replaced by the
recalculated record with `last_success` stamped. -/
theorem on_handshake_spec_witness :
    alookup "ap1" hsWitnessMem = some hsWitnessAP ∧
    alookup "cl1" hsWitnessAP.clients = some hsWitnessClient ∧
    ((alookup "ap1" (on_handshake 200 hsWitnessMem "ap1" "cl1")).map
        (·.handshakes) = some (hsWitnessAP.handshakes + 1) ∧
      (alookup "ap1" (on_handshake 200 hsWitnessMem "ap1" "cl1")).bind
          (fun a2 => alookup "cl1" a2.clients)
        = some ((recalculate_client_score 200
            (setLastSuccess 200 hsWitnessClient)).2)) :=
  ⟨rfl, rfl,
    (on_handshake_spec 200 hsWitnessMem "ap1" "cl1").2.2 hsWitnessAP
      hsWitnessClient rfl rfl⟩

/-! ## Recon and policy lemmas -/

lemma add_mod_window (cursor j n : ℕ) (hn : 0 < n) (hj : j < n) :
    (cursor + ((j + n - cursor % n) % n)) % n = j := by
  have hr : cursor % n < n := Nat.mod_lt _ hn
  set r := cursor % n with hrdef
  set m := (j + n - r) % n with hmdef
  have hm : m < n := Nat.mod_lt _ hn
  rw [Nat.add_mod cursor m n, ← hrdef, Nat.mod_eq_of_lt hm]
  rcases le_or_lt r j with h | h
  · have h1 : j + n - r = (j - r) + n := by omega
    have h2 : m = j - r := by
      rw [hmdef, h1, Nat.add_mod_right, Nat.mod_eq_of_lt (by omega)]
    rw [h2, show r + (j - r) = j from by omega, Nat.mod_eq_of_lt hj]
  · have h2 : m = j + n - r := by
      rw [hmdef, Nat.mod_eq_of_lt (by omega)]
    rw [h2, show r + (j + n - r) = j + n from by omega, Nat.add_mod_right,
      Nat.mod_eq_of_lt hj]

lemma reconLoop_isSome_of_window (supported : List ℤ) :
    ∀ (fuel cursor : ℕ) (tested : List ℤ),
      (∃ k, k < fuel ∧ ∃ c, supported[(cursor + k) % supported.length]?
          = some c ∧ c ∉ tested) →
      (reconLoop supported fuel cursor tested).isSome := by
  intro fuel
  induction fuel with
  | zero =>
    rintro cursor tested ⟨k, hk, -⟩
    omega
  | succ m ih =>
    rintro cursor tested ⟨k, hk, c, hget, hc⟩
    have hn : 0 < supported.length := by
      rw [List.getElem?_eq_some] at hget
      obtain ⟨h, -⟩ := hget
      omega
    have hmod : cursor % supported.length < supported.length :=
      Nat.mod_lt _ hn
    have hc0 : supported[cursor % supported.length]? =
        some supported[cursor % supported.length] :=
      List.getElem?_eq_getElem hmod
    by_cases hmem : supported[cursor % supported.length] ∈ tested
    · have hk0 : k ≠ 0 := by
        rintro rfl
        rw [Nat.add_zero, hc0] at hget
        exact hc (Option.some_injective _ hget ▸ hmem)
      obtain ⟨k', rfl⟩ := Nat.exists_eq_succ_of_ne_zero hk0
      have step : reconLoop supported (m + 1) cursor tested =
          reconLoop supported m (cursor + 1) tested := by
        simp [reconLoop, hc0, hmem]
      rw [step]
      apply ih
      refine ⟨k', by omega, c, ?_, hc⟩
      rw [show cursor + 1 + k' = cursor + (k' + 1) from by omega]
      exact hget
    · simp [reconLoop, hc0, hmem]

lemma reconLoop_total (supported : List ℤ) (cursor : ℕ) (tested : List ℤ)
    (hsn : supported.Nodup)
    (hlt : tested.length < supported.length) :
    (reconLoop supported supported.length cursor tested).isSome := by
  have hn : 0 < supported.length := by omega
  obtain ⟨x, hxs, hxt⟩ : ∃ x ∈ supported, x ∉ tested := by
    by_contra h
    push_neg at h
    have hsub : supported ⊆ tested := fun x hx => h x hx
    have := (hsn.subperm hsub).length_le
    omega
  obtain ⟨j, rfl⟩ := List.mem_iff_get.mp hxs
  apply reconLoop_isSome_of_window
  refine ⟨(↑j + supported.length - cursor % supported.length)
      % supported.length, Nat.mod_lt _ hn, supported.get j, ?_, hxt⟩
  rw [add_mod_window cursor ↑j supported.length hn j.isLt]
  exact List.getElem?_eq_getElem j.isLt

lemma reconLoop_step (supported : List ℤ) (fuel cursor : ℕ)
    (tested : List ℤ) (hf : fuel ≠ 0) (c : ℤ)
    (hget : supported[cursor % supported.length]? = some c)
    (hc : c ∉ tested) :
    reconLoop supported fuel cursor tested =
      some (c, cursor + 1, tested ++ [c]) := by
  obtain ⟨m, rfl⟩ := Nat.exists_eq_succ_of_ne_zero hf
  simp [reconLoop, hget, hc]

lemma reconLoop_mem (supported : List ℤ) :
    ∀ (fuel cursor : ℕ) (tested : List ℤ) (c : ℤ) (st : ℕ × List ℤ),
      reconLoop supported fuel cursor tested = some (c, st) →
      c ∈ supported := by
  intro fuel
  induction fuel with
  | zero =>
    intro cursor tested c st h
    simp [reconLoop] at h
  | succ m ih =>
    intro cursor tested c st h
    unfold reconLoop at h
    cases hg : supported[cursor % supported.length]? with
    | none => rw [hg] at h; simp at h
    | some c0 =>
      rw [hg] at h
      dsimp only at h
      by_cases hmem : c0 ∈ tested
      · rw [if_pos hmem] at h
        exact ih _ _ _ _ h
      · rw [if_neg hmem] at h
        simp at h
        obtain ⟨rfl, -⟩ := h
        exact List.getElem?_mem hg

lemma take_append_getElem (l : List ℤ) (k : ℕ) (hk : k < l.length) :
    l.take k ++ [l[k]] = l.take (k + 1) := by
  have := List.take_concat_get l k hk
  rw [List.concat_eq_append] at this
  exact this

lemma get_not_mem_take (l : List ℤ) (hnd : l.Nodup) (k : ℕ)
    (hk : k < l.length) : l[k] ∉ l.take k := by
  have h2 : (l.take (k + 1)).Nodup := (List.take_sublist _ _).nodup hnd
  rw [← take_append_getElem l k hk] at h2
  have h3 := List.nodup_append.mp h2
  intro hmem
  exact h3.2.2 hmem (List.mem_singleton_self _)

lemma epoch_recon_take (supported : List ℤ) (hnd : supported.Nodup) (k : ℕ)
    (hk : k < supported.length) :
    epoch_recon supported ⟨k, supported.take k⟩ =
      .set supported[k] ⟨k + 1, supported.take (k + 1)⟩ := by
  have hlen : (supported.take k).length = k := by
    rw [List.length_take]
    omega
  unfold epoch_recon
  rw [if_neg (by rw [hlen]; omega)]
  rw [reconLoop_step supported supported.length k (supported.take k)
    (by omega) supported[k]
    (by rw [Nat.mod_eq_of_lt hk]; exact List.getElem?_eq_getElem hk)
    (get_not_mem_take supported hnd k hk)]
  rw [take_append_getElem supported k hk]

lemma reconTrace_eq (supported : List ℤ) (hnd : supported.Nodup) :
    ∀ k, k ≤ supported.length →
      reconTrace supported k = (⟨k, supported.take k⟩, supported.take k) := by
  intro k
  induction k with
  | zero =>
    intro _
    rfl
  | succ k ih =>
    intro hk1
    have hk : k < supported.length := by omega
    show reconTrace supported (k + 1) = _
    unfold reconTrace
    rw [ih (by omega)]
    dsimp only
    rw [epoch_recon_take supported hnd k hk]
    dsimp only
    rw [take_append_getElem supported k hk]

lemma reconTrace_ge (supported : List ℤ) (hnd : supported.Nodup) :
    ∀ k, supported.length ≤ k →
      reconTrace supported k =
        (⟨supported.length, supported⟩, supported) := by
  intro k
  induction k with
  | zero =>
    intro hk
    obtain rfl : supported = ([] : List ℤ) :=
      List.length_eq_zero.mp (by omega)
    rfl
  | succ k ih =>
    intro hk1
    rcases Nat.lt_or_ge supported.length (k + 1) with h | h
    · have hk : supported.length ≤ k := by omega
      unfold reconTrace
      rw [ih hk]
      dsimp only
      unfold epoch_recon
      rw [if_pos (le_refl _)]
    · have hk : supported.length = k + 1 := by omega
      rw [reconTrace_eq supported hnd (k + 1) (by omega), ← hk,
        List.take_length]

lemma mem_supported_of_filtered (supported : List ℤ)
    (pairs : List (ℤ × ℚ)) (x : ℤ)
    (hx : x ∈ (pairs.filter (fun p => decide (p.1 ∈ supported))).map (·.1)) :
    x ∈ supported := by
  simp only [List.mem_map, List.mem_filter] at hx
  obtain ⟨p, ⟨-, hdec⟩, rfl⟩ := hx
  exact of_decide_eq_true hdec

lemma epoch_strict_mem (pick : List ℤ → ℤ) (pickW : List ℤ → List ℚ → ℤ)
    (hpick : ∀ l : List ℤ, l ≠ [] → pick l ∈ l)
    (hpickW : ∀ (l : List ℤ) (w : List ℚ), l ≠ [] → pickW l w ∈ l)
    (stats : List (ℤ × ChStats)) (supported : List ℤ)
    (hsup : supported ≠ []) :
    epoch_strict pick pickW stats supported ∈ supported := by
  simp only [epoch_strict]
  split
  · exact hpick supported hsup
  · split
    · exact hpick supported hsup
    · rename_i hne2
      split
      · apply mem_supported_of_filtered supported
        apply hpick
        intro hnil
        rw [hnil] at hne2
        simp at hne2
      · apply mem_supported_of_filtered supported
        apply hpickW
        intro hnil
        rw [hnil] at hne2
        simp at hne2

lemma epoch_loose_mem (explore : Bool) (pick : List ℤ → ℤ)
    (pickW : List ℤ → List ℚ → ℤ)
    (hpick : ∀ l : List ℤ, l ≠ [] → pick l ∈ l)
    (hpickW : ∀ (l : List ℤ) (w : List ℚ), l ≠ [] → pickW l w ∈ l)
    (stats : List (ℤ × ChStats)) (supported : List ℤ)
    (hsup : supported ≠ []) :
    epoch_loose explore pick pickW stats supported ∈ supported := by
  simp only [epoch_loose]
  split
  · exact hpick supported hsup
  · split
    · exact hpick supported hsup
    · split
      · exact hpick supported hsup
      · rename_i hne2
        split
        · apply mem_supported_of_filtered supported
          apply hpick
          intro hnil
          rw [hnil] at hne2
          simp at hne2
        · apply mem_supported_of_filtered supported
          apply hpickW
          intro hnil
          rw [hnil] at hne2
          simp at hne2

/-- Concrete selection oracle for the witnesses: `random.choice` resolved
to "first element". -/
def pickHead (l : List ℤ) : ℤ := l.headD 0

/-- Concrete weighted-selection oracle for the witnesses. -/
def pickWHead (l : List ℤ) (_w : List ℚ) : ℤ := l.headD 0

/-- C5: from the freshly reset recon cursor, (i) the first
`supported.length` recon epoch calls set exactly the supported channels in
order (with `Nodup`, each exactly once and none twice within the pass);
(ii) each such call returns via the set-channel branch with the cursor
advanced; (iii) the skip-if-visited recursion always terminates within one
full cycle of fuel whenever the pass is incomplete, for any cursor
position; (iv) once every channel is visited, every later call falls
through to the Strict logic with the cursor state unchanged, until the
cursor is reset. -/
theorem recon_sweep_pass (supported : List ℤ) (hnd : supported.Nodup) :
    (reconTrace supported supported.length).2 = supported ∧
    (∀ k (hk : k < supported.length),
      epoch_recon supported (reconTrace supported k).1 =
        .set supported[k] ⟨k + 1, supported.take (k + 1)⟩) ∧
    (∀ (cursor : ℕ) (tested : List ℤ),
      tested.length < supported.length →
      (reconLoop supported supported.length cursor tested).isSome) ∧
    (∀ k, supported.length ≤ k →
      epoch_recon supported (reconTrace supported k).1 =
        .fallthrough ⟨supported.length, supported⟩) := by
  refine ⟨?_, ?_, ?_, ?_⟩
  · rw [reconTrace_eq supported hnd supported.length le_rfl]
    exact List.take_length _
  · intro k hk
    rw [reconTrace_eq supported hnd k (by omega)]
    exact epoch_recon_take supported hnd k hk
  · intro cursor tested h
    exact reconLoop_total supported cursor tested hnd h
  · intro k hk
    rw [reconTrace_ge supported hnd k hk]
    unfold epoch_recon
    rw [if_pos (le_refl _)]

/-- C5 witness: the full sweep over the concrete supported list
`[1, 6, 11]`. -/
theorem recon_sweep_pass_witness :
    ([1, 6, 11] : List ℤ).Nodup ∧
    ((reconTrace [1, 6, 11] ([1, 6, 11] : List ℤ).length).2 = [1, 6, 11] ∧
    (∀ k (hk : k < ([1, 6, 11] : List ℤ).length),
      epoch_recon [1, 6, 11] (reconTrace [1, 6, 11] k).1 =
        .set ([1, 6, 11] : List ℤ)[k]
          ⟨k + 1, ([1, 6, 11] : List ℤ).take (k + 1)⟩) ∧
    (∀ (cursor : ℕ) (tested : List ℤ),
      tested.length < ([1, 6, 11] : List ℤ).length →
      (reconLoop [1, 6, 11] ([1, 6, 11] : List ℤ).length cursor
        tested).isSome) ∧
    (∀ k, ([1, 6, 11] : List ℤ).length ≤ k →
      epoch_recon [1, 6, 11] (reconTrace [1, 6, 11] k).1 =
        .fallthrough ⟨([1, 6, 11] : List ℤ).length, [1, 6, 11]⟩)) :=
  ⟨by decide, recon_sweep_pass [1, 6, 11] (by decide)⟩

/-- C7: for every non-empty supported-channel list, every store state and
every random draw, Strict and Loose return a member of the supported list
on all paths, and Recon never diverges (under distinct supported channels)
and only ever sets channels from the supported list; its fallthrough runs
the Strict logic, covered by the first conjunct. -/
theorem policies_select_supported (pick : List ℤ → ℤ)
    (pickW : List ℤ → List ℚ → ℤ)
    (hpick : ∀ l : List ℤ, l ≠ [] → pick l ∈ l)
    (hpickW : ∀ (l : List ℤ) (w : List ℚ), l ≠ [] → pickW l w ∈ l)
    (stats : List (ℤ × ChStats)) (supported : List ℤ)
    (hsup : supported ≠ []) :
    epoch_strict pick pickW stats supported ∈ supported ∧
    (∀ explore, epoch_loose explore pick pickW stats supported ∈ supported) ∧
    (∀ st : ReconState, supported.Nodup →
      epoch_recon supported st ≠ ReconResult.diverge ∧
      (∀ c st2, epoch_recon supported st = ReconResult.set c st2 →
        c ∈ supported)) := by
  refine ⟨epoch_strict_mem pick pickW hpick hpickW stats supported hsup,
    fun explore =>
      epoch_loose_mem explore pick pickW hpick hpickW stats supported hsup,
    fun st hnd => ?_⟩
  unfold epoch_recon
  split
  · constructor
    · simp
    · intro c st2 h
      simp at h
  · rename_i hlt
    have htot := reconLoop_total supported st.cursor st.tested hnd (by omega)
    cases hr : reconLoop supported supported.length st.cursor st.tested with
    | none =>
      rw [hr] at htot
      simp at htot
    | some v =>
      obtain ⟨c, cur, tst⟩ := v
      dsimp only
      constructor
      · simp
      · intro c2 st2 h2
        simp only [ReconResult.set.injEq] at h2
        obtain ⟨rfl, -⟩ := h2
        exact reconLoop_mem supported _ _ _ _ _ hr

/-- C7 witness: concrete oracles, stats and supported list. -/
theorem policies_select_supported_witness :
    (∀ l : List ℤ, l ≠ [] → pickHead l ∈ l) ∧
    (∀ (l : List ℤ) (w : List ℚ), l ≠ [] → pickWHead l w ∈ l) ∧
    (([1, 6, 11] : List ℤ) ≠ []) ∧
    (epoch_strict pickHead pickWHead [(6, ⟨1, 2, 3⟩)] [1, 6, 11]
        ∈ ([1, 6, 11] : List ℤ) ∧
    (∀ explore, epoch_loose explore pickHead pickWHead [(6, ⟨1, 2, 3⟩)]
        [1, 6, 11] ∈ ([1, 6, 11] : List ℤ)) ∧
    (∀ st : ReconState, ([1, 6, 11] : List ℤ).Nodup →
      epoch_recon [1, 6, 11] st ≠ ReconResult.diverge ∧
      (∀ c st2, epoch_recon [1, 6, 11] st = ReconResult.set c st2 →
        c ∈ ([1, 6, 11] : List ℤ)))) := by
  have hp : ∀ l : List ℤ, l ≠ [] → pickHead l ∈ l := by
    intro l h
    cases l with
    | nil => exact absurd rfl h
    | cons a t => simp [pickHead]
  have hpw : ∀ (l : List ℤ) (w : List ℚ), l ≠ [] → pickWHead l w ∈ l := by
    intro l w h
    cases l with
    | nil => exact absurd rfl h
    | cons a t => simp [pickWHead]
  exact ⟨hp, hpw, by decide,
    policies_select_supported pickHead pickWHead hp hpw
      [(6, ⟨1, 2, 3⟩)] [1, 6, 11] (by decide)⟩

/-- C9: in Strict mode with exactly one tracked channel that is supported
and has strictly positive weight, the weighted draw is over the singleton
population, so every random draw returns that channel. -/
theorem strict_single_tracked (pick : List ℤ → ℤ)
    (pickW : List ℤ → List ℚ → ℤ)
    (hpickW : ∀ (l : List ℤ) (w : List ℚ), l ≠ [] → pickW l w ∈ l)
    (ch : ℤ) (s : ChStats) (supported : List ℤ)
    (hmem : ch ∈ supported) (hw : 0 < channelWeight s) :
    epoch_strict pick pickW [(ch, s)] supported = ch := by
  have hw' : channelWeight s ≠ 0 := hw.ne'
  have h1 : pickW [ch] [channelWeight s] ∈ [ch] :=
    hpickW [ch] [channelWeight s] (by simp)
  simp only [epoch_strict]
  simp [hmem, hw']
  simpa using h1

/-- C9 witness: only channel 6 tracked (weight 32 > 0), supported channels
`{1, 6, 11}` — the strict policy returns 6 for any draw. -/
theorem strict_single_tracked_witness :
    (6 : ℤ) ∈ ([1, 6, 11] : List ℤ) ∧
    (0 : ℚ) < channelWeight ⟨1, 2, 3⟩ ∧
    epoch_strict pickHead pickWHead [(6, ⟨1, 2, 3⟩)] [1, 6, 11] = 6 := by
  have hpw : ∀ (l : List ℤ) (w : List ℚ), l ≠ [] → pickWHead l w ∈ l := by
    intro l w h
    cases l with
    | nil => exact absurd rfl h
    | cons a t => simp [pickWHead]
  have hw : (0 : ℚ) < channelWeight ⟨1, 2, 3⟩ := by
    norm_num [channelWeight, CLIENT_WEIGHT, HANDSHAKE_WEIGHT,
      PMKID_FRIENDLY_APS_THRESHOLD, PMKID_FRIENDLY_BOOST_FACTOR]
  exact ⟨by decide, hw,
    strict_single_tracked pickHead pickWHead hpw 6 ⟨1, 2, 3⟩ [1, 6, 11]
      (by decide) hw⟩

end SATpwn
